import Mathlib

/-!
Verification of the SumGame ("SumStack") game-state engine.

Shallow embedding of `src/types.ts`, `src/utils/gameLogic.ts` and the state-transition
logic of `src/App.tsx` (`initGame`, `handleBlockClick`, the timer-tick callback).

Modelling conventions:
* `Math.random()` is modelled as an explicit stream of rational draws (`Rng`); each
  JavaScript call to `Math.random()` consumes one draw, in source evaluation order.
* JavaScript numbers are IEEE-754 binary64.  All integer-valued arithmetic in the
  program (scores, sums, levels, grid indices) stays far below 2^53, where binary64
  arithmetic is exact, so those quantities are modelled directly as `Int`/`Nat`.
  The only genuinely fractional arithmetic is the `timeLeft -= 0.1` decrement of the
  timer tick; there the binary64 subtraction is modelled exactly (`fsub`), including
  round-to-nearest-ties-to-even, because the accumulated rounding error is observable
  (it decides at which tick `timeLeft` crosses zero).
* `Math.floor(Math.random() * k)` (block values, target sums) is modelled with exact
  rational multiplication; the rounding of the binary64 multiply can only perturb which
  value a given draw produces, never the value range, and no claim observes the value
  produced by a particular draw.
* `generateId` is `Math.random().toString(36).substring(2, 9)`: for a draw `r` in
  `[0, 1)` this is the first seven base-36 fraction digits of `r`, fewer if the
  expansion terminates earlier (`toString` prints no trailing zeros), and the empty
  string for `r = 0` (`"0".substring(2, 9)` is empty).
-/

attribute [local semireducible] Rat.add Rat.sub Rat.mul Rat.inv Rat.ofScientific

namespace SumGame

/-! ## Constants (src/types.ts) -/

def GRID_ROWS : Nat := 10
def GRID_COLS : Nat := 6
def INITIAL_ROWS : Nat := 4
def MAX_VALUE : Int := 9
def MIN_VALUE : Int := 1

/-- Game mode (`'classic' | 'time'`). -/
inductive GameMode where
  | classic : GameMode
  | time : GameMode
deriving DecidableEq, Repr

/-- A numbered tile (src/types.ts `Block`).  The optional `isRemoving` field of the
source is never read or written by the game logic and is omitted. -/
structure Block where
  id : String
  value : Int
  row : Nat
  col : Nat
deriving DecidableEq, Repr

/-- Grid type, `(Block | null)[][]` in the source. -/
abbrev Grid := List (List (Option Block))

/-! ## Random-draw stream

Each call to `Math.random()` consumes the draw at the current index. -/

/-- A stream of `Math.random()` results together with the index of the next draw. -/
structure Rng where
  stream : Nat → ℚ
  idx : Nat

/-! ## Exact binary64 rounding (for the timer arithmetic) -/

/-- Bit length of a natural number, fuel-based so that it reduces in the kernel. -/
def bitLenAux : Nat → Nat → Nat
  | 0, _ => 0
  | fuel + 1, n => if n = 0 then 0 else bitLenAux fuel (n / 2) + 1

/-- Bit length of a natural number (valid for `n < 2 ^ 256`, far beyond every number
appearing in this development). -/
def bitLen (n : Nat) : Nat := bitLenAux 256 n

/-- The rational `2 ^ e` for an integer exponent. -/
def pow2 (e : Int) : ℚ :=
  if 0 ≤ e then ((2 ^ e.toNat : Nat) : ℚ) else 1 / ((2 ^ (-e).toNat : Nat) : ℚ)

/-- Round to the nearest integer, ties to even. -/
def roundTiesEven (q : ℚ) : Int :=
  let f := ⌊q⌋
  let frac := q - (f : ℚ)
  if frac < 1 / 2 then f
  else if 1 / 2 < frac then f + 1
  else if f % 2 = 0 then f else f + 1

/-- Floor of the base-2 logarithm of a positive rational. -/
def floorLog2 (q : ℚ) : Int :=
  let d : Int := (bitLen q.num.toNat : Int) - (bitLen q.den : Int)
  if pow2 d ≤ q then d else d - 1

/-- Round a positive rational to the nearest IEEE-754 binary64 value (53-bit
significand, ties to even).  Valid in the normal range, which covers every quantity
in this development. -/
def roundPos (q : ℚ) : ℚ :=
  let e := floorLog2 q
  let ulp := pow2 (e - 52)
  (roundTiesEven (q / ulp) : ℚ) * ulp

/-- Round a rational to the nearest binary64 value. -/
def roundDouble (q : ℚ) : ℚ :=
  if q = 0 then 0 else if q < 0 then -roundPos (-q) else roundPos q

/-- Binary64 subtraction `a - b` (both operands already binary64 values). -/
def fsub (a b : ℚ) : ℚ := roundDouble (a - b)

/-- The binary64 value of the source literal `0.1`. -/
def dOneTenth : ℚ := roundDouble (1 / 10)

/-! ## Grid generator (src/utils/gameLogic.ts) -/

/-- Character for one base-36 digit, as printed by JavaScript `Number.toString(36)`. -/
def base36Digit (d : Nat) : Char :=
  if d < 10 then Char.ofNat (48 + d) else Char.ofNat (87 + d)

/-- Number of fraction digits `toString(36)` prints for a draw in `(0, 1)`: the
expansion is cut where it terminates (no trailing zeros), and `substring(2, 9)` keeps
at most seven digits. -/
def idLen (r : ℚ) : Nat :=
  ((((List.range 7).map (fun k => k + 1)).find? (fun k => (r * 36 ^ k).den = 1)).getD 7)

/-- Model of `generateId = () => Math.random().toString(36).substring(2, 9)`, as a function of
the draw `r` produced by `Math.random()`. -/
def generateId (r : ℚ) : String :=
  if r = 0 then ""
  else String.mk ((List.range (idLen r)).map
    (fun j => base36Digit (((⌊r * 36 ^ (j + 1)⌋).toNat) % 36)))

/-- Model of `createBlock(row, col, value?)`.  `generateId()` is always called; the value draw
is only consumed when `value` is omitted (`??` short-circuits). -/
def createBlock (row col : Nat) (value : Option Int) (g : Rng) : Block × Rng :=
  let r1 := g.stream g.idx
  match value with
  | some v => ({ id := generateId r1, value := v, row := row, col := col },
               ⟨g.stream, g.idx + 1⟩)
  | none =>
    let r2 := g.stream (g.idx + 1)
    ({ id := generateId r1,
       value := ⌊r2 * ((MAX_VALUE - MIN_VALUE + 1 : Int) : ℚ)⌋ + MIN_VALUE,
       row := row, col := col },
     ⟨g.stream, g.idx + 2⟩)

/-- Model of `createEmptyGrid()`. -/
def createEmptyGrid : Grid :=
  List.replicate GRID_ROWS (List.replicate GRID_COLS none)

/-- Model of `generateRow(rowIndex)`: `GRID_COLS` fresh blocks at columns `0 .. GRID_COLS-1`,
generated left to right. -/
def generateRow (rowIndex : Nat) (g : Rng) : List (Option Block) × Rng :=
  (List.range GRID_COLS).foldl
    (fun acc c =>
      let p := createBlock rowIndex c none acc.2
      (acc.1 ++ [some p.1], p.2))
    ([], g)

/-- Model of `getTargetSum(level) = 10 + Math.floor(Math.random() * Math.min(level, 10))`. -/
def getTargetSum (level : Int) (g : Rng) : Int × Rng :=
  let variance : Int := min level 10
  (10 + ⌊g.stream g.idx * (variance : ℚ)⌋, ⟨g.stream, g.idx + 1⟩)

/-- Model of `checkGameOver(grid) = grid[0].some(cell => cell !== null)`. -/
def checkGameOver (grid : Grid) : Bool :=
  (grid.getD 0 []).any (fun c => c.isSome)

/-- The cell `grid[r][c]` (`none` when out of range, matching the falsiness of
`undefined` in the source's guarded reads). -/
def gridCell (g : Grid) (r c : Nat) : Option Block :=
  ((g[r]?).bind (fun row => row[c]?)).join

/-- Column `c` of the `GRID_ROWS` rows the source iterates over, top to bottom. -/
def column (g : Grid) (c : Nat) : List (Option Block) :=
  (List.range GRID_ROWS).map (fun r => gridCell g r c)

/-- Re-stamp a run of blocks with consecutive rows starting at `p`, column `c`
(`{ ...block, row: targetRow, col }`). -/
def stampCol (p c : Nat) : List Block → List Block
  | [] => []
  | b :: rest => { b with row := p, col := c } :: stampCol (p + 1) c rest

/-- One column after gravity: the occupied cells of `cells` fall to the bottom,
preserving top-to-bottom order, re-stamped with their new rows.  Mirrors the
per-column `targetRow` loop of `applyGravity`. -/
def compactCol (c : Nat) (cells : List (Option Block)) : List (Option Block) :=
  List.replicate (cells.length - (cells.filterMap id).length) none ++
    (stampCol (cells.length - (cells.filterMap id).length) c (cells.filterMap id)).map some

/-- Model of `applyGravity(grid)`: per-column downward compaction into a fresh
`GRID_ROWS x GRID_COLS` grid. -/
def applyGravity (grid : Grid) : Grid :=
  (List.range GRID_ROWS).map (fun r =>
    (List.range GRID_COLS).map (fun c => ((compactCol c (column grid c))[r]?).join))

/-- Model of `shiftUp(grid)`: every block of row `r >= 1` moves to row `r - 1` (row 0 is
discarded), and row `GRID_ROWS - 1` is filled with a freshly generated row. -/
def shiftUp (grid : Grid) (g : Rng) : Grid × Rng :=
  let bottom := generateRow (GRID_ROWS - 1) g
  ((List.range GRID_ROWS).map (fun r =>
      if r < GRID_ROWS - 1 then
        (List.range GRID_COLS).map
          (fun c => (gridCell grid (r + 1) c).map (fun b => { b with row := r, col := c }))
      else bottom.1),
   bottom.2)

/-! ## Game state (src/types.ts `GameState`) -/

/-- The authoritative game state.  `timeLeft`/`maxTime` are `undefined` outside time
mode, modelled as `none`. -/
structure GameState where
  grid : Grid
  targetSum : Int
  selectedIds : List String
  score : Int
  highScore : Int
  isGameOver : Bool
  mode : GameMode
  level : Int
  combo : Int
  timeLeft : Option ℚ
  maxTime : Option ℚ
deriving DecidableEq

/-! ## State machine (src/App.tsx) -/

/-- Model of `initGame(mode)`: empty grid with the bottom `INITIAL_ROWS` rows filled (rows
generated from the bottom upward), `targetSum = getTargetSum(1)`, `highScore` seeded
from the persisted value (`0` when absent). -/
def initGame (mode : GameMode) (savedHighScore : Option Int) (g : Rng) :
    GameState × Rng :=
  let filled :=
    (List.range INITIAL_ROWS).foldl
      (fun acc i =>
        let rowIdx := GRID_ROWS - 1 - i
        let p := generateRow rowIdx acc.2
        (acc.1.set rowIdx p.1, p.2))
      (createEmptyGrid, g)
  let ts := getTargetSum 1 filled.2
  ({ grid := filled.1
     targetSum := ts.1
     selectedIds := []
     score := 0
     highScore := savedHighScore.getD 0
     isGameOver := false
     mode := mode
     level := 1
     combo := 0
     timeLeft := if mode = GameMode.time then some 10 else none
     maxTime := if mode = GameMode.time then some 10 else none },
   ts.2)

/-- The toggled selection: remove `blockId` when present, append it when absent. -/
def toggledSel (st : GameState) (blockId : String) : List String :=
  if st.selectedIds.contains blockId then
    st.selectedIds.filter (fun i => i != blockId)
  else
    st.selectedIds ++ [blockId]

/-- First block with the given id, scanning rows top to bottom and cells left to
right (`for (const row of prev.grid) { const found = row.find(...) }`). -/
def findBlockInGrid (grid : Grid) (i : String) : Option Block :=
  grid.foldr
    (fun row acc =>
      ((row.find? (fun ob => match ob with
                             | some b => b.id == i
                             | none => false)).join) <|> acc)
    none

/-- Selected ids resolved to blocks; unresolvable ids are dropped
(`.map(...).filter(Boolean)`). -/
def resolveSelected (grid : Grid) (ids : List String) : List Block :=
  ids.filterMap (findBlockInGrid grid)

/-- Model of `selectedBlocks.reduce((acc, b) => acc + b.value, 0)`. -/
def selectionSum (grid : Grid) (ids : List String) : Int :=
  (resolveSelected grid ids).foldl (fun a b => a + b.value) 0

/-- Null out every block whose id is selected
(`row.map(b => b && newSelectedIds.includes(b.id) ? null : b)`). -/
def removeSelected (grid : Grid) (ids : List String) : Grid :=
  grid.map (fun row =>
    row.map (fun ob => ob.bind (fun b => if ids.contains b.id then none else some b)))

/-- Model of `handleBlockClick` (src/App.tsx lines 73-153), as a function of the clicked
block's id.  `paused` is the external `isPaused` gate. -/
def selectToggle (paused : Bool) (st : GameState) (blockId : String) (g : Rng) :
    GameState × Rng :=
  if st.isGameOver || paused then (st, g)
  else
    let newSelectedIds := toggledSel st blockId
    let currentSum := selectionSum st.grid newSelectedIds
    if currentSum = st.targetSum then
      let gravityGrid := applyGravity (removeSelected st.grid newSelectedIds)
      let fin :=
        if st.mode = GameMode.classic then
          if checkGameOver gravityGrid then (gravityGrid, true, g)
          else
            let p := shiftUp gravityGrid g
            (p.1, checkGameOver p.1, p.2)
        else (gravityGrid, false, g)
      let points := st.targetSum * (newSelectedIds.length : Int) * (st.combo + 1)
      let newScore := st.score + points
      let newHighScore := max newScore st.highScore
      let ts := getTargetSum st.level fin.2.2
      ({ st with
          grid := fin.1
          selectedIds := []
          targetSum := ts.1
          score := newScore
          highScore := newHighScore
          isGameOver := fin.2.1
          combo := st.combo + 1
          level := newScore.fdiv 1000 + 1
          timeLeft := if st.mode = GameMode.time
            then some (((max 5 (10 - st.level.fdiv 2) : Int) : ℚ)) else none
          maxTime := if st.mode = GameMode.time
            then some (((max 5 (10 - st.level.fdiv 2) : Int) : ℚ)) else none },
       ts.2)
    else if st.targetSum < currentSum then
      ({ st with selectedIds := [], combo := 0 }, g)
    else
      ({ st with selectedIds := newSelectedIds }, g)

/-- One timer tick.  The interval only exists while
`mode === 'time' && !isGameOver && !isPaused` (the `useEffect` guard of
src/App.tsx lines 156-194); outside that condition a tick is the identity. -/
def tick (paused : Bool) (st : GameState) (g : Rng) : GameState × Rng :=
  if st.mode = GameMode.time ∧ st.isGameOver = false ∧ paused = false then
    match st.timeLeft with
    | none => (st, g)
    | some t =>
      if t ≤ 0 then
        if checkGameOver st.grid then ({ st with isGameOver := true }, g)
        else
          let p := shiftUp st.grid g
          let nextMaxTime : ℚ := ((max 5 (10 - st.level.fdiv 2) : Int) : ℚ)
          ({ st with
              grid := p.1
              timeLeft := some nextMaxTime
              maxTime := some nextMaxTime
              isGameOver := checkGameOver p.1
              combo := 0
              selectedIds := [] },
           p.2)
      else ({ st with timeLeft := some (fsub t dOneTenth) }, g)
  else (st, g)

/-- Iterate `n` consecutive timer ticks. -/
def iterTick (paused : Bool) : Nat → GameState × Rng → GameState × Rng
  | 0, x => x
  | n + 1, x => iterTick paused n (tick paused x.1 x.2)

/-- The tick about to be applied to `x` takes the forced-row-injection branch. -/
def isInjectionTick (paused : Bool) (x : GameState × Rng) : Bool :=
  decide (x.1.mode = GameMode.time ∧ x.1.isGameOver = false ∧ paused = false) &&
    (match x.1.timeLeft with
     | some t => decide (t ≤ 0)
     | none => false) &&
    !checkGameOver x.1.grid

/-- Number of forced row injections among the first `n` ticks from `x`. -/
def countInjections (paused : Bool) (n : Nat) (x : GameState × Rng) : Nat :=
  ((List.range n).filter (fun k => isInjectionTick paused (iterTick paused k x))).length

/-- Grid shape invariant: exactly `GRID_ROWS` rows of exactly `GRID_COLS` cells. -/
abbrev gridShape (g : Grid) : Prop :=
  g.length = GRID_ROWS ∧ ∀ row ∈ g, row.length = GRID_COLS

/-- The multiset of `(id, value)` pairs of the blocks in the
`GRID_ROWS x GRID_COLS` window of a grid, collected column by column. -/
def gridIdVals (g : Grid) : Multiset (String × Int) :=
  ((((List.range GRID_COLS).map
      (fun c => ((column g c).filterMap id).map (fun b => (b.id, b.value)))).flatten :
    List (String × Int)) : Multiset (String × Int))

/-- States reachable from `initGame` by any sequence of selection and tick events,
with arbitrary random draws, pause gating and clicked ids at every step. -/
inductive Reachable : GameState → Prop where
  | init (mode : GameMode) (savedHighScore : Option Int) (g : Rng) :
      Reachable (initGame mode savedHighScore g).1
  | select (st : GameState) (paused : Bool) (blockId : String) (g : Rng) :
      Reachable st → Reachable (selectToggle paused st blockId g).1
  | tick (st : GameState) (paused : Bool) (g : Rng) :
      Reachable st → Reachable (tick paused st g).1

/-! ## Concrete fixtures for witnesses -/

/-- A concrete random stream: every draw is `1/2`. -/
def rngHalf : Rng := ⟨fun _ => 1 / 2, 0⟩

def blockA : Block := { id := "a", value := 4, row := 9, col := 0 }
def blockB : Block := { id := "b", value := 6, row := 9, col := 1 }
def blockC : Block := { id := "c", value := 3, row := 9, col := 2 }

/-- A row holding the given cells on the left, padded with empty cells. -/
def rowOf (bs : List (Option Block)) : List (Option Block) :=
  bs ++ List.replicate (GRID_COLS - bs.length) none

/-- A shape-correct grid whose bottom row holds blocks `a`, `b`, `c`. -/
def demoGrid : Grid :=
  createEmptyGrid.set 9 (rowOf [some blockA, some blockB, some blockC])

/-- A classic-mode state over `demoGrid` with block `a` selected. -/
def demoState : GameState :=
  { grid := demoGrid
    targetSum := 10
    selectedIds := ["a"]
    score := 0
    highScore := 0
    isGameOver := false
    mode := GameMode.classic
    level := 1
    combo := 0
    timeLeft := none
    maxTime := none }

/-- The value of `timeLeft` after `n` binary64 subtractions of the literal `0.1`
from `t`, i.e. after `n` pure-decrement ticks. -/
def fsubIter : Nat → ℚ → ℚ
  | 0, t => t
  | n + 1, t => fsubIter n (fsub t dOneTenth)

/-- A concrete time-mode state with `timeLeft = 10` and a nonzero combo. -/
def timeState : GameState :=
  { grid := demoGrid
    targetSum := 10
    selectedIds := []
    score := 0
    highScore := 0
    isGameOver := false
    mode := GameMode.time
    level := 1
    combo := 5
    timeLeft := some 10
    maxTime := some 10 }

/-- A concrete random stream whose first and third draws are distinct binary64
values in `[0, 1)` sharing their first seven base-36 fraction digits. -/
def collideStream : Rng :=
  ⟨fun n => if n = 0 then 1 / 2 + 1 / 2 ^ 53
            else if n = 2 then 1 / 2 + 1 / 2 ^ 52
            else 1 / 2, 0⟩

/-- Spec-side description of the corrected tick scenario (claim C2): from
`timeLeft = 10`, the first 100 ticks (and also the 101st) are pure decrements —
zero forced row injections, every field except `timeLeft` unchanged — and the
single forced injection occurs at tick 102, where `shiftUp` fires, `combo` resets
to 0, `selectedIds` clears and the timer resets to `max(5, 10 - floor(level/2))`. -/
def firstInjectionSpec (st : GameState) (g : Rng) : Prop :=
  countInjections false 100 (st, g) = 0 ∧
  countInjections false 101 (st, g) = 0 ∧
  (iterTick false 100 (st, g)).1 = { st with timeLeft := some (fsubIter 100 10) } ∧
  (iterTick false 102 (st, g)).1 =
    { st with
        grid := (shiftUp st.grid g).1
        timeLeft := some ((max 5 (10 - st.level.fdiv 2) : Int) : ℚ)
        maxTime := some ((max 5 (10 - st.level.fdiv 2) : Int) : ℚ)
        isGameOver := checkGameOver (shiftUp st.grid g).1
        combo := 0
        selectedIds := [] } ∧
  countInjections false 102 (st, g) = 1

/-! ## Spec-side statements of the selection branches -/

/-- Spec-side description of the exact-match grid pipeline (claim C1): remove the
selected blocks, apply gravity; in classic mode either stop as game over (grid in
row 0) without injecting a row, or inject via `shiftUp` and re-check game over; in
time mode the result is exactly the post-gravity grid. -/
def exactMatchGridSpec (st : GameState) (blockId : String) (g : Rng) : Prop :=
  let res := (selectToggle false st blockId g).1
  let grav := applyGravity (removeSelected st.grid (toggledSel st blockId))
  (st.mode = GameMode.classic →
    (checkGameOver grav = true → res.grid = grav ∧ res.isGameOver = true) ∧
    (checkGameOver grav = false →
      res.grid = (shiftUp grav g).1 ∧
      res.isGameOver = checkGameOver (shiftUp grav g).1)) ∧
  (st.mode = GameMode.time → res.grid = grav ∧ res.isGameOver = false)

/-- Spec-side description of the success scoring (claim C4). -/
def successScoringSpec (st : GameState) (blockId : String) (g : Rng) : Prop :=
  let res := (selectToggle false st blockId g).1
  res.score = st.score + st.targetSum * ((toggledSel st blockId).length : Int) * (st.combo + 1) ∧
  res.highScore = max st.highScore res.score ∧
  res.combo = st.combo + 1 ∧
  res.selectedIds = []

/-- Spec-side description of the one-round lag between score-driven level and the
inputs of target-sum / timer-reset generation (claim C6): the new `targetSum` is
drawn from the pre-match level, the produced `level` is recomputed from the new
score, and in time mode the timer reset uses the pre-match level. -/
def levelLagSpec (st : GameState) (blockId : String) (g : Rng) : Prop :=
  let res := (selectToggle false st blockId g).1
  let newScore := st.score + st.targetSum * ((toggledSel st blockId).length : Int) * (st.combo + 1)
  let grav := applyGravity (removeSelected st.grid (toggledSel st blockId))
  let gAfter := if st.mode = GameMode.classic ∧ checkGameOver grav = false
    then (shiftUp grav g).2 else g
  res.targetSum = (getTargetSum st.level gAfter).1 ∧
  res.level = newScore.fdiv 1000 + 1 ∧
  (st.mode = GameMode.time →
    res.timeLeft = some ((max 5 (10 - st.level.fdiv 2) : Int) : ℚ) ∧
    res.maxTime = some ((max 5 (10 - st.level.fdiv 2) : Int) : ℚ))

/-- Spec-side description of a match completed by deselection (claim C10): the
sum check runs on the post-toggle selection, so removing a block whose remaining
co-selection hits the target takes the full success branch. -/
def deselectMatchSpec (st : GameState) (blockId : String) (g : Rng) : Prop :=
  let newSel := st.selectedIds.filter (fun i => i != blockId)
  let grav := applyGravity (removeSelected st.grid newSel)
  let res := (selectToggle false st blockId g).1
  res.selectedIds = [] ∧
  res.combo = st.combo + 1 ∧
  res.score = st.score + st.targetSum * (newSel.length : Int) * (st.combo + 1) ∧
  res.grid = (if st.mode = GameMode.classic then
                (if checkGameOver grav then grav else (shiftUp grav g).1)
              else grav)

end SumGame

namespace SumGame

/-! ## Claim theorems -/

/-- C1: on an exact match the resulting grid is: selected blocks removed, gravity
applied; in classic mode, game over without row injection when the post-gravity grid
already has a block in row 0, otherwise `shiftUp` with game over re-checked on the
result; in time mode exactly the post-gravity grid, with no row injected. -/
theorem selectToggle_exact_match_grid (st : GameState) (blockId : String) (g : Rng)
    (hover : st.isGameOver = false)
    (hsum : selectionSum st.grid (toggledSel st blockId) = st.targetSum) :
    exactMatchGridSpec st blockId g := by
  unfold exactMatchGridSpec selectToggle
  rw [hover]
  simp only [Bool.or_self, Bool.false_eq_true, if_false]
  rw [if_pos hsum]
  constructor
  · intro hm
    constructor
    · intro hgo
      simp [hm, hgo]
    · intro hgo
      simp [hm, hgo]
  · intro hm
    simp [hm]

/-- Witness for C1: classic mode, clicking `b` completes the target `4 + 6 = 10`. -/
theorem selectToggle_exact_match_grid_witness :
    demoState.isGameOver = false ∧
    selectionSum demoState.grid (toggledSel demoState "b") = demoState.targetSum ∧
    exactMatchGridSpec demoState "b" rngHalf :=
  ⟨rfl, by decide, selectToggle_exact_match_grid demoState "b" rngHalf rfl (by decide)⟩

/-- C6: on a successful match the new target sum is drawn from the pre-match level,
the produced level is `floor(newScore / 1000) + 1`, and the time-mode timer reset
`max(5, 10 - floor(level / 2))` uses the pre-match level. -/
theorem selectToggle_level_lag (st : GameState) (blockId : String) (g : Rng)
    (hover : st.isGameOver = false)
    (hsum : selectionSum st.grid (toggledSel st blockId) = st.targetSum) :
    levelLagSpec st blockId g := by
  unfold levelLagSpec selectToggle
  rw [hover]
  simp only [Bool.or_self, Bool.false_eq_true, if_false]
  rw [if_pos hsum]
  by_cases hm : st.mode = GameMode.classic
  · by_cases hgo : checkGameOver (applyGravity (removeSelected st.grid (toggledSel st blockId)))
    · simp [hm, hgo]
    · simp [hm, hgo]
  · simp [hm]

/-- Witness for C6. -/
theorem selectToggle_level_lag_witness :
    demoState.isGameOver = false ∧
    selectionSum demoState.grid (toggledSel demoState "b") = demoState.targetSum ∧
    levelLagSpec demoState "b" rngHalf :=
  ⟨rfl, by decide, selectToggle_level_lag demoState "b" rngHalf rfl (by decide)⟩

/-- C10: deselecting a block whose remaining co-selection sums exactly to the target
takes the full success branch (removal, gravity, scoring), not a mere shrink of the
selection: the sum check runs unconditionally after the toggle. -/
theorem selectToggle_deselect_completes_match (st : GameState) (blockId : String)
    (g : Rng)
    (hover : st.isGameOver = false)
    (hsel : st.selectedIds.contains blockId = true)
    (hsum : selectionSum st.grid (st.selectedIds.filter (fun i => i != blockId)) =
      st.targetSum) :
    deselectMatchSpec st blockId g := by
  have htog : toggledSel st blockId = st.selectedIds.filter (fun i => i != blockId) := by
    unfold toggledSel
    rw [hsel]
    simp
  unfold deselectMatchSpec selectToggle
  rw [hover]
  simp only [Bool.or_self, Bool.false_eq_true, if_false]
  rw [htog, if_pos hsum]
  by_cases hm : st.mode = GameMode.classic
  · by_cases hgo : checkGameOver (applyGravity (removeSelected st.grid
      (st.selectedIds.filter (fun i => i != blockId))))
    · simp [hm, hgo]
    · simp [hm, hgo]
  · simp [hm]

/-! ### Timer ticks (claim C2) -/

set_option maxRecDepth 8000

theorem tick_decrement (st : GameState) (g : Rng) (t : ℚ)
    (hm : st.mode = GameMode.time) (hover : st.isGameOver = false)
    (ht : st.timeLeft = some t) (hpos : 0 < t) :
    tick false st g = ({ st with timeLeft := some (fsub t dOneTenth) }, g) := by
  unfold tick
  rw [if_pos ⟨hm, hover, rfl⟩, ht]
  dsimp only
  rw [if_neg (not_le.mpr hpos)]

theorem iterTick_decrements (n : Nat) (st : GameState) (g : Rng) (t : ℚ)
    (hm : st.mode = GameMode.time) (hover : st.isGameOver = false)
    (ht : st.timeLeft = some t)
    (hpos : ∀ k < n, 0 < fsubIter k t) :
    iterTick false n (st, g) = ({ st with timeLeft := some (fsubIter n t) }, g) := by
  induction n generalizing st t with
  | zero =>
      simp only [iterTick, fsubIter]
      rw [← ht]
  | succ n ih =>
      have h0 : 0 < t := hpos 0 (Nat.succ_pos n)
      rw [show iterTick false (n + 1) (st, g) = iterTick false n (tick false st g) from rfl]
      rw [tick_decrement st g t hm hover ht h0]
      rw [ih { st with timeLeft := some (fsub t dOneTenth) } (fsub t dOneTenth) hm hover
        rfl (fun k hk => hpos (k + 1) (Nat.succ_lt_succ hk))]
      rfl

theorem isInjectionTick_of_pos (x : GameState × Rng) (v : ℚ)
    (hx : x.1.timeLeft = some v) (hv : 0 < v) :
    isInjectionTick false x = false := by
  unfold isInjectionTick
  rw [hx]
  simp [not_le.mpr hv]

theorem countInjections_of_decrements (n : Nat) (st : GameState) (g : Rng) (t : ℚ)
    (hm : st.mode = GameMode.time) (hover : st.isGameOver = false)
    (ht : st.timeLeft = some t)
    (hpos : ∀ k < n, 0 < fsubIter k t) :
    countInjections false n (st, g) = 0 := by
  unfold countInjections
  rw [List.length_eq_zero, List.filter_eq_nil_iff]
  intro k hk
  have hk' : k < n := List.mem_range.mp hk
  rw [iterTick_decrements k st g t hm hover ht (fun j hj => hpos j (lt_trans hj hk'))]
  simp [isInjectionTick_of_pos ({ st with timeLeft := some (fsubIter k t) }, g)
    (fsubIter k t) rfl (hpos k hk')]

theorem iterTick_add (p : Bool) (m n : Nat) (x : GameState × Rng) :
    iterTick p (m + n) x = iterTick p n (iterTick p m x) := by
  induction m generalizing x with
  | zero =>
      rw [Nat.zero_add]
      rfl
  | succ m ih =>
      rw [Nat.succ_add]
      show iterTick p (m + n) (tick p x.1 x.2) = _
      rw [ih (tick p x.1 x.2)]
      rfl

/-- C2 amended: from `timeLeft = 10` in time mode (grid not yet game-over), the
first 100 ticks contain zero forced injections — every one of them is a pure
binary64 decrement of `timeLeft` by 0.1 — and so does the 101st; the single forced
injection happens at tick 102, where the accumulated decrement first makes
`timeLeft ≤ 0`, and there `combo` resets to 0. -/
theorem time_mode_first_injection (st : GameState) (g : Rng)
    (hm : st.mode = GameMode.time) (hover : st.isGameOver = false)
    (ht : st.timeLeft = some 10) (hgo : checkGameOver st.grid = false) :
    firstInjectionSpec st g := by
  have hpos : ∀ k < 101, 0 < fsubIter k (10 : ℚ) := by decide
  have hneg : fsubIter 101 (10 : ℚ) ≤ 0 := by decide
  have h101 : iterTick false 101 (st, g) =
      ({ st with timeLeft := some (fsubIter 101 10) }, g) :=
    iterTick_decrements 101 st g 10 hm hover ht hpos
  have h100 : iterTick false 100 (st, g) =
      ({ st with timeLeft := some (fsubIter 100 10) }, g) :=
    iterTick_decrements 100 st g 10 hm hover ht (fun k hk => hpos k (by omega))
  refine ⟨?_, ?_, ?_, ?_, ?_⟩
  · exact countInjections_of_decrements 100 st g 10 hm hover ht
      (fun k hk => hpos k (by omega))
  · exact countInjections_of_decrements 101 st g 10 hm hover ht hpos
  · rw [h100]
  · have hsplit : iterTick false 102 (st, g) =
        iterTick false 1 (iterTick false 101 (st, g)) := iterTick_add false 101 1 (st, g)
    rw [hsplit, h101]
    show (tick false { st with timeLeft := some (fsubIter 101 10) } g).1 = _
    unfold tick
    rw [if_pos ⟨hm, hover, rfl⟩]
    dsimp only
    rw [if_pos hneg]
    simp only [hgo, Bool.false_eq_true, if_false]
  · unfold countInjections
    rw [show (102 : Nat) = 101 + 1 from rfl, List.range_succ, List.filter_append]
    have hz : ((List.range 101).filter
        (fun k => isInjectionTick false (iterTick false k (st, g)))) = [] := by
      rw [List.filter_eq_nil_iff]
      intro k hk
      have hk' : k < 101 := List.mem_range.mp hk
      rw [iterTick_decrements k st g 10 hm hover ht (fun j hj => hpos j (by omega))]
      simp [isInjectionTick_of_pos ({ st with timeLeft := some (fsubIter k 10) }, g)
        (fsubIter k 10) rfl (hpos k hk')]
    have hone : isInjectionTick false (iterTick false 101 (st, g)) = true := by
      rw [h101]
      unfold isInjectionTick
      simp [hm, hover, hgo, hneg]
    rw [hz]
    simp [hone]

/-- Witness for the amended C2 theorem at a concrete time-mode state. -/
theorem time_mode_first_injection_witness :
    timeState.mode = GameMode.time ∧ timeState.isGameOver = false ∧
    timeState.timeLeft = some 10 ∧ checkGameOver timeState.grid = false ∧
    firstInjectionSpec timeState rngHalf :=
  ⟨rfl, rfl, rfl, by decide,
    time_mode_first_injection timeState rngHalf rfl rfl rfl (by decide)⟩

/-- C2 counterexample: at a concrete time-mode state with `timeLeft = 10`, the 100
consecutive ticks contain zero forced row injections (the claim asserts exactly
one): all 100 merely decrement `timeLeft`; in particular `combo` is still 5 and
the grid is unchanged after them. -/
theorem hundred_ticks_no_injection :
    countInjections false 100 (timeState, rngHalf) = 0 ∧
    (iterTick false 100 (timeState, rngHalf)).1.combo = 5 ∧
    (iterTick false 100 (timeState, rngHalf)).1.grid = timeState.grid := by
  have hpos : ∀ k < 100, 0 < fsubIter k (10 : ℚ) := by decide
  refine ⟨countInjections_of_decrements 100 timeState rngHalf 10 rfl rfl rfl hpos, ?_, ?_⟩
  · rw [iterTick_decrements 100 timeState rngHalf 10 rfl rfl rfl hpos]
    rfl
  · rw [iterTick_decrements 100 timeState rngHalf 10 rfl rfl rfl hpos]

/-! ### Block id generation (claim C7) -/

/-- C7 counterexample: two consecutive `createBlock` calls can yield the same id.
The two id draws are distinct binary64 values in `[0, 1)` (so a real `Math.random`
can produce them), yet `toString(36).substring(2, 9)` maps both to `"i000000"`. -/
theorem createBlock_id_collision :
    (createBlock 9 0 none collideStream).1.id =
      (createBlock 9 1 none (createBlock 9 0 none collideStream).2).1.id ∧
    collideStream.stream 0 ≠ collideStream.stream 2 ∧
    (0 ≤ collideStream.stream 0 ∧ collideStream.stream 0 < 1) ∧
    (0 ≤ collideStream.stream 2 ∧ collideStream.stream 2 < 1) := by
  decide

/-- C7 amended: when the `value` argument is omitted, the created block's value
lies in `[MIN_VALUE, MAX_VALUE] = [1, 9]` for every value draw in `[0, 1)`; id
uniqueness, by contrast, is not guaranteed (see the counterexample). -/
theorem createBlock_value_in_range (row col : Nat) (g : Rng)
    (h0 : 0 ≤ g.stream (g.idx + 1)) (h1 : g.stream (g.idx + 1) < 1) :
    MIN_VALUE ≤ (createBlock row col none g).1.value ∧
      (createBlock row col none g).1.value ≤ MAX_VALUE := by
  unfold createBlock
  dsimp only
  have h9 : ((MAX_VALUE - MIN_VALUE + 1 : Int) : ℚ) = 9 := by
    norm_num [MAX_VALUE, MIN_VALUE]
  rw [h9]
  have hf0 : (0 : Int) ≤ ⌊g.stream (g.idx + 1) * (9 : ℚ)⌋ := by
    apply Int.floor_nonneg.mpr
    apply mul_nonneg h0
    norm_num
  have hf9 : ⌊g.stream (g.idx + 1) * (9 : ℚ)⌋ < 9 := by
    rw [Int.floor_lt]
    push_cast
    nlinarith
  unfold MAX_VALUE MIN_VALUE
  omega

/-- Witness for the amended C7 value-range theorem. -/
theorem createBlock_value_in_range_witness :
    (0 ≤ rngHalf.stream (rngHalf.idx + 1)) ∧ (rngHalf.stream (rngHalf.idx + 1) < 1) ∧
    (MIN_VALUE ≤ (createBlock 9 0 none rngHalf).1.value ∧
      (createBlock 9 0 none rngHalf).1.value ≤ MAX_VALUE) :=
  ⟨by decide, by decide, createBlock_value_in_range 9 0 rngHalf (by decide) (by decide)⟩

/-! ### Grid shape preservation (claim C9) -/

theorem generateRow_foldl_length (rowIndex : Nat) (l : List Nat)
    (acc : List (Option Block) × Rng) :
    ((l.foldl
        (fun acc c =>
          let p := createBlock rowIndex c none acc.2
          (acc.1 ++ [some p.1], p.2))
        acc).1).length = acc.1.length + l.length := by
  induction l generalizing acc with
  | nil => rfl
  | cons a t ih =>
      rw [List.foldl_cons, ih]
      simp
      omega

theorem generateRow_length (rowIndex : Nat) (g : Rng) :
    (generateRow rowIndex g).1.length = GRID_COLS := by
  unfold generateRow
  rw [generateRow_foldl_length]
  rfl

theorem gridShape_createEmptyGrid : gridShape createEmptyGrid := by
  constructor
  · rfl
  · intro row hrow
    rw [List.eq_of_mem_replicate hrow]
    rfl

theorem gridShape_applyGravity (g : Grid) : gridShape (applyGravity g) := by
  constructor
  · simp [applyGravity]
  · intro row hrow
    rw [applyGravity] at hrow
    obtain ⟨r, _, hrw⟩ := List.mem_map.mp hrow
    rw [← hrw]
    simp

theorem gridShape_shiftUp (g : Grid) (rng : Rng) : gridShape (shiftUp g rng).1 := by
  constructor
  · simp [shiftUp]
  · intro row hrow
    simp only [shiftUp] at hrow
    obtain ⟨r, _, hrw⟩ := List.mem_map.mp hrow
    rw [← hrw]
    by_cases hr : r < GRID_ROWS - 1
    · simp [hr]
    · simp [hr, generateRow_length]

theorem gridShape_initGame (mode : GameMode) (savedHighScore : Option Int) (g : Rng) :
    gridShape (initGame mode savedHighScore g).1.grid := by
  unfold initGame
  have key : ∀ (l : List Nat) (acc : Grid × Rng), gridShape acc.1 →
      gridShape ((l.foldl
        (fun acc i =>
          let rowIdx := GRID_ROWS - 1 - i
          let p := generateRow rowIdx acc.2
          (acc.1.set rowIdx p.1, p.2))
        acc).1) := by
    intro l
    induction l with
    | nil => intro acc h; exact h
    | cons a t ih =>
        intro acc h
        rw [List.foldl_cons]
        apply ih
        constructor
        · rw [List.length_set]
          exact h.1
        · intro row hrow
          rcases List.mem_or_eq_of_mem_set hrow with h1 | h2
          · exact h.2 row h1
          · rw [h2]
            exact generateRow_length _ _
  exact key _ _ gridShape_createEmptyGrid

theorem gridShape_selectToggle (paused : Bool) (st : GameState) (blockId : String)
    (g : Rng) (h : gridShape st.grid) :
    gridShape (selectToggle paused st blockId g).1.grid := by
  unfold selectToggle
  by_cases hguard : (st.isGameOver || paused) = true
  · rw [if_pos hguard]
    exact h
  · rw [if_neg hguard]
    by_cases hsum : selectionSum st.grid (toggledSel st blockId) = st.targetSum
    · rw [if_pos hsum]
      by_cases hm : st.mode = GameMode.classic
      · by_cases hgo :
          checkGameOver (applyGravity (removeSelected st.grid (toggledSel st blockId))) = true
        · simpa [hm, hgo] using
            gridShape_applyGravity (removeSelected st.grid (toggledSel st blockId))
        · simpa [hm, hgo] using
            gridShape_shiftUp (applyGravity (removeSelected st.grid (toggledSel st blockId))) g
      · simpa [hm] using
          gridShape_applyGravity (removeSelected st.grid (toggledSel st blockId))
    · rw [if_neg hsum]
      by_cases hgt : st.targetSum < selectionSum st.grid (toggledSel st blockId)
      · rw [if_pos hgt]
        exact h
      · rw [if_neg hgt]
        exact h

theorem gridShape_tick (paused : Bool) (st : GameState) (g : Rng)
    (h : gridShape st.grid) : gridShape (tick paused st g).1.grid := by
  unfold tick
  by_cases hcond : st.mode = GameMode.time ∧ st.isGameOver = false ∧ paused = false
  · rw [if_pos hcond]
    cases htl : st.timeLeft with
    | none => exact h
    | some t =>
        dsimp only
        by_cases hle : t ≤ 0
        · rw [if_pos hle]
          by_cases hgo : checkGameOver st.grid = true
          · simpa [hgo] using h
          · simpa [hgo] using gridShape_shiftUp st.grid g
        · rw [if_neg hle]
          exact h
  · rw [if_neg hcond]
    exact h

/-- C9: every state reachable from `initGame` by selection and tick transitions has
a grid of exactly `GRID_ROWS = 10` rows, each of exactly `GRID_COLS = 6` cells. -/
theorem reachable_gridShape (st : GameState) (h : Reachable st) : gridShape st.grid := by
  induction h with
  | init mode savedHighScore g => exact gridShape_initGame mode savedHighScore g
  | select st paused blockId g _ ih => exact gridShape_selectToggle paused st blockId g ih
  | tick st paused g _ ih => exact gridShape_tick paused st g ih

/-- Witness for C9 at a concrete freshly initialised state. -/
theorem reachable_gridShape_witness :
    Reachable (initGame GameMode.classic none rngHalf).1 ∧
      gridShape (initGame GameMode.classic none rngHalf).1.grid :=
  ⟨Reachable.init GameMode.classic none rngHalf,
    reachable_gridShape _ (Reachable.init GameMode.classic none rngHalf)⟩

/-! ### Gravity algebra (claim C8) -/

theorem stampCol_length (p c : Nat) (bs : List Block) :
    (stampCol p c bs).length = bs.length := by
  induction bs generalizing p with
  | nil => rfl
  | cons b t ih => simp [stampCol, ih]

theorem stampCol_stampCol (p c : Nat) (bs : List Block) :
    stampCol p c (stampCol p c bs) = stampCol p c bs := by
  induction bs generalizing p with
  | nil => rfl
  | cons b t ih => simp [stampCol, ih]

theorem stampCol_idVals (p c : Nat) (bs : List Block) :
    (stampCol p c bs).map (fun b => (b.id, b.value)) =
      bs.map (fun b => (b.id, b.value)) := by
  induction bs generalizing p with
  | nil => rfl
  | cons b t ih => simp [stampCol, ih]

theorem filterMap_id_replicate_none (n : Nat) :
    (List.replicate n (none : Option Block)).filterMap id = [] := by
  induction n with
  | zero => rfl
  | succ k ih => simp [List.replicate_succ, ih]

theorem filterMap_id_map_some (l : List Block) : (l.map some).filterMap id = l := by
  induction l with
  | nil => rfl
  | cons b t ih => simp [ih]

theorem compactCol_length (c : Nat) (cells : List (Option Block)) :
    (compactCol c cells).length = cells.length := by
  unfold compactCol
  rw [List.length_append, List.length_replicate, List.length_map, stampCol_length]
  exact Nat.sub_add_cancel (List.length_filterMap_le _ _)

theorem filterMap_id_compactCol (c : Nat) (cells : List (Option Block)) :
    (compactCol c cells).filterMap id =
      stampCol (cells.length - (cells.filterMap id).length) c (cells.filterMap id) := by
  unfold compactCol
  rw [List.filterMap_append, filterMap_id_replicate_none, filterMap_id_map_some,
    List.nil_append]

theorem compactCol_idem (c : Nat) (cells : List (Option Block)) :
    compactCol c (compactCol c cells) = compactCol c cells := by
  nth_rewrite 1 [compactCol]
  rw [filterMap_id_compactCol, compactCol_length, stampCol_length, stampCol_stampCol]
  rfl

theorem column_length (g : Grid) (c : Nat) : (column g c).length = GRID_ROWS := by
  simp [column]

theorem getElem_join_range (L : List (Option Block)) :
    (List.range L.length).map (fun r => (L[r]?).join) = L := by
  induction L with
  | nil => rfl
  | cons a t ih =>
      rw [List.length_cons, List.range_succ_eq_map, List.map_cons, List.map_map]
      have hf : ((fun r => ((a :: t)[r]?).join) ∘ Nat.succ) =
          (fun r => (t[r]?).join) := by
        funext r
        simp
      rw [hf, ih]
      simp

/-- Unfolding equation for `applyGravity` used to rewrite a single occurrence. -/
theorem applyGravity_eq_map (g : Grid) :
    applyGravity g = (List.range GRID_ROWS).map (fun r =>
      (List.range GRID_COLS).map
        (fun c => ((compactCol c (column g c))[r]?).join)) := rfl

theorem column_applyGravity (g : Grid) (c : Nat) (hc : c < GRID_COLS) :
    column (applyGravity g) c = compactCol c (column g c) := by
  have hlen : (compactCol c (column g c)).length = GRID_ROWS := by
    rw [compactCol_length, column_length]
  conv_rhs => rw [← getElem_join_range (compactCol c (column g c)), hlen]
  apply List.map_congr_left
  intro r hr
  have hr10 : r < GRID_ROWS := List.mem_range.mp hr
  unfold column gridCell
  rw [applyGravity_eq_map g, List.getElem?_map, List.getElem?_range hr10]
  simp [hc]
  rfl

/-- C8 core: gravity is idempotent (on every grid; its output is always a fixed
point). -/
theorem applyGravity_idem (g : Grid) :
    applyGravity (applyGravity g) = applyGravity g := by
  rw [applyGravity_eq_map (applyGravity g)]
  conv_rhs => rw [applyGravity_eq_map g]
  apply List.map_congr_left
  intro r hr
  apply List.map_congr_left
  intro c hc
  rw [column_applyGravity g c (List.mem_range.mp hc), compactCol_idem]

/-- C8 core: gravity preserves the multiset of block ids and values. -/
theorem gridIdVals_applyGravity (g : Grid) :
    gridIdVals (applyGravity g) = gridIdVals g := by
  unfold gridIdVals
  congr 1
  congr 1
  apply List.map_congr_left
  intro c hc
  rw [column_applyGravity g c (List.mem_range.mp hc), filterMap_id_compactCol,
    stampCol_idVals]

/-- C8: on every `GRID_ROWS x GRID_COLS` grid, `applyGravity` is idempotent and
preserves the multiset of block ids and values.  The embedding is purely
functional, so `applyGravity` cannot mutate its input (it builds a fresh grid,
exactly as the source allocates `createEmptyGrid()` and fills it). -/
theorem applyGravity_idem_conserves (g : Grid) (_h : gridShape g) :
    applyGravity (applyGravity g) = applyGravity g ∧
      gridIdVals (applyGravity g) = gridIdVals g :=
  ⟨applyGravity_idem g, gridIdVals_applyGravity g⟩

/-- Witness for C8 on a concrete grid. -/
theorem applyGravity_idem_conserves_witness :
    gridShape demoGrid ∧
    (applyGravity (applyGravity demoGrid) = applyGravity demoGrid ∧
      gridIdVals (applyGravity demoGrid) = gridIdVals demoGrid) :=
  ⟨by decide, applyGravity_idem_conserves demoGrid (by decide)⟩

/-- Witness for C10: selection `a, b, c` (values 4, 6, 3), target 10; deselecting
`c` leaves `4 + 6 = 10` and completes the match. -/
theorem selectToggle_deselect_witness :
    ({ demoState with selectedIds := ["a", "b", "c"] } : GameState).isGameOver = false ∧
    ({ demoState with selectedIds := ["a", "b", "c"] } : GameState).selectedIds.contains "c" = true ∧
    selectionSum ({ demoState with selectedIds := ["a", "b", "c"] } : GameState).grid
      (({ demoState with selectedIds := ["a", "b", "c"] } : GameState).selectedIds.filter
        (fun i => i != "c")) =
      ({ demoState with selectedIds := ["a", "b", "c"] } : GameState).targetSum ∧
    deselectMatchSpec { demoState with selectedIds := ["a", "b", "c"] } "c" rngHalf :=
  ⟨rfl, by decide, by decide,
    selectToggle_deselect_completes_match { demoState with selectedIds := ["a", "b", "c"] }
      "c" rngHalf rfl (by decide) (by decide)⟩

/-- C3: for every game-over state and every paused state, a tick is a no-op: the
state (every field) and the random stream are unchanged. -/
theorem tick_noop_of_gameOver_or_paused (st : GameState) (g : Rng) (paused : Bool)
    (h : st.isGameOver = true ∨ paused = true) :
    tick paused st g = (st, g) := by
  unfold tick
  rcases h with h | h <;> simp [h]

/-- Witness for C3 at a concrete game-over state. -/
theorem tick_noop_witness :
    tick false { demoState with isGameOver := true } rngHalf =
      ({ demoState with isGameOver := true }, rngHalf) :=
  tick_noop_of_gameOver_or_paused { demoState with isGameOver := true } rngHalf false
    (Or.inl rfl)

/-- C5: when the toggled selection strictly exceeds the target sum, the result has
`selectedIds = []` and `combo = 0`, and every other field (grid, score, targetSum,
level, highScore, mode, isGameOver, timeLeft, maxTime) is unchanged. -/
theorem selectToggle_overflow (st : GameState) (blockId : String) (g : Rng)
    (hover : st.isGameOver = false)
    (hgt : st.targetSum < selectionSum st.grid (toggledSel st blockId)) :
    (selectToggle false st blockId g).1 = { st with selectedIds := [], combo := 0 } := by
  unfold selectToggle
  rw [hover]
  simp only [Bool.or_self, Bool.false_eq_true, if_false]
  rw [if_neg (ne_of_gt hgt), if_pos hgt]

/-- C4: on a successful match the points added are
`targetSum * (number of selected blocks) * (combo + 1)` from the pre-match values,
the high score becomes the max of the previous high score and the new score, the
combo increments, and the selection is cleared. -/
theorem selectToggle_success_scoring (st : GameState) (blockId : String) (g : Rng)
    (hover : st.isGameOver = false)
    (hsum : selectionSum st.grid (toggledSel st blockId) = st.targetSum) :
    successScoringSpec st blockId g := by
  unfold successScoringSpec selectToggle
  rw [hover]
  simp only [Bool.or_self, Bool.false_eq_true, if_false]
  rw [if_pos hsum]
  exact ⟨rfl, max_comm _ _, rfl, rfl⟩

/-- Witness for C4: target 10, two selected blocks of values 4 and 6, combo 0, so
exactly `10 * 2 * 1 = 20` points are added. -/
theorem selectToggle_success_scoring_witness :
    demoState.isGameOver = false ∧
    selectionSum demoState.grid (toggledSel demoState "b") = demoState.targetSum ∧
    successScoringSpec demoState "b" rngHalf ∧
    (selectToggle false demoState "b" rngHalf).1.score = 20 :=
  ⟨rfl, by decide,
    selectToggle_success_scoring demoState "b" rngHalf rfl (by decide), by decide⟩

/-- Witness for C5: target 9, selected values 4 and 6. -/
theorem selectToggle_overflow_witness :
    ({ demoState with targetSum := 9 } : GameState).isGameOver = false ∧
    ({ demoState with targetSum := 9 } : GameState).targetSum <
      selectionSum ({ demoState with targetSum := 9 } : GameState).grid
        (toggledSel { demoState with targetSum := 9 } "b") ∧
    (selectToggle false { demoState with targetSum := 9 } "b" rngHalf).1 =
      { ({ demoState with targetSum := 9 } : GameState) with
          selectedIds := [], combo := 0 } :=
  ⟨rfl, by decide,
    selectToggle_overflow { demoState with targetSum := 9 } "b" rngHalf rfl (by decide)⟩

end SumGame
